import Mathlib

/-!
Verification of the configuration core of the `http-server` repository:
the CORS configuration model (`src/config/cors.rs`) and the server
configuration file loader (`src/config/file.rs`).

The Rust code is shallowly embedded: structs become Lean structures,
`Option<T>` becomes `Option`, `Vec<String>` becomes `List String`,
fallible functions return `Except`, and a possible panic is modelled by
an `Option` wrapper whose `none` stands for the panic.
-/

/-- Rust `std::time::Duration`: whole seconds (a `u64`, so `< 2 ^ 64`) together
with a nanosecond remainder (`< 10 ^ 9`).  Equality of durations is equality
of both components, exactly as in Rust. -/
structure Duration where
  secs : Nat
  nanos : Nat
deriving DecidableEq, Repr

/-- Rust `Duration::from_secs`: a whole number of seconds, zero nanoseconds. -/
def Duration.from_secs (s : Nat) : Duration := ⟨s, 0⟩

/-- Model of a Rust `f64` value as it is used for the `max_age` field: a finite
float is abstracted as its exact rational value (every finite `f64` is a
rational number), and the non-finite values are kept explicit. -/
inductive F64 where
  | finite (q : ℚ)
  | nan
  | inf (negative : Bool)
deriving DecidableEq, Repr

/-- Round a rational to the nearest integer, ties going to the even integer.
This is the rounding Rust's `Duration::try_from_secs_f64` applies at
nanosecond granularity. -/
def roundHalfEven (q : ℚ) : ℤ :=
  let f : ℤ := ⌊q⌋
  let r : ℚ := q - (f : ℚ)
  if r < 1 / 2 then f
  else if 1 / 2 < r then f + 1
  else if f % 2 = 0 then f else f + 1

/-- Model of Rust `std::time::Duration::from_secs_f64` (std library code, not
part of this repository; embedded following its documented behaviour): the
value is converted to nanoseconds rounding to nearest (ties to even); the
function panics — modelled as `none` — when the input is NaN, infinite,
negative, or the resulting number of whole seconds does not fit in a `u64`. -/
def durationFromSecsF64 : F64 → Option Duration
  | F64.nan => none
  | F64.inf _ => none
  | F64.finite q =>
    if q < 0 then none
    else
      let n : ℤ := roundHalfEven (q * 1000000000)
      if n < 18446744073709551616 * 1000000000 then
        some ⟨n.toNat / 1000000000, n.toNat % 1000000000⟩
      else none

/-- The `CorsConfig` struct of `src/config/cors.rs`, fields in declaration
order. -/
@[ext]
structure CorsConfig where
  allow_credentials : Bool
  allow_headers : Option (List String)
  allow_methods : Option (List String)
  allow_origin : Option String
  expose_headers : Option (List String)
  max_age : Option Duration
  request_headers : Option (List String)
  request_method : Option String
deriving DecidableEq, Repr

/-- The `CorsConfigBuilder` struct: a builder wrapping a `CorsConfig`. -/
structure CorsConfigBuilder where
  config : CorsConfig
deriving DecidableEq, Repr

/-- `impl Default for CorsConfig`: every optional field absent, credentials
`false`. -/
def CorsConfig.default : CorsConfig :=
  { allow_credentials := false
    allow_headers := none
    allow_methods := none
    allow_origin := none
    expose_headers := none
    max_age := none
    request_headers := none
    request_method := none }

/-- `CorsConfig::builder()`. -/
def CorsConfig.builder : CorsConfigBuilder :=
  { config := CorsConfig.default }

/-- `CorsConfig::allow_all()`. -/
def CorsConfig.allow_all : CorsConfig :=
  { allow_origin := some "*"
    allow_methods := some ["GET", "POST", "PUT", "PATCH", "DELETE", "HEAD"]
    allow_headers := some ["Origin", "Content-Length", "Content-Type"]
    allow_credentials := false
    max_age := some (Duration.from_secs 43200)
    expose_headers := none
    request_headers := none
    request_method := none }

/-- Builder setter `allow_origin`. -/
def CorsConfigBuilder.allow_origin (b : CorsConfigBuilder) (origin : String) :
    CorsConfigBuilder :=
  { config := { b.config with allow_origin := some origin } }

/-- Builder setter `allow_methods`. -/
def CorsConfigBuilder.allow_methods (b : CorsConfigBuilder)
    (methods : List String) : CorsConfigBuilder :=
  { config := { b.config with allow_methods := some methods } }

/-- Builder setter `allow_headers`. -/
def CorsConfigBuilder.allow_headers (b : CorsConfigBuilder)
    (headers : List String) : CorsConfigBuilder :=
  { config := { b.config with allow_headers := some headers } }

/-- Builder setter `allow_credentials`: takes no argument, sets the flag to
`true` unconditionally. -/
def CorsConfigBuilder.allow_credentials (b : CorsConfigBuilder) :
    CorsConfigBuilder :=
  { config := { b.config with allow_credentials := true } }

/-- Builder setter `max_age`. -/
def CorsConfigBuilder.max_age (b : CorsConfigBuilder) (duration : Duration) :
    CorsConfigBuilder :=
  { config := { b.config with max_age := some duration } }

/-- Builder setter `expose_headers`. -/
def CorsConfigBuilder.expose_headers (b : CorsConfigBuilder)
    (headers : List String) : CorsConfigBuilder :=
  { config := { b.config with expose_headers := some headers } }

/-- Builder setter `request_headers`. -/
def CorsConfigBuilder.request_headers (b : CorsConfigBuilder)
    (headers : List String) : CorsConfigBuilder :=
  { config := { b.config with request_headers := some headers } }

/-- Builder setter `request_method`. -/
def CorsConfigBuilder.request_method (b : CorsConfigBuilder)
    (method : String) : CorsConfigBuilder :=
  { config := { b.config with request_method := some method } }

/-- `CorsConfigBuilder::build()`. -/
def CorsConfigBuilder.build (b : CorsConfigBuilder) : CorsConfig :=
  b.config

/-- The `CorsConfigFile` struct, fields in declaration order.  `max_age` is a
floating-point number of seconds. -/
structure CorsConfigFile where
  allow_credentials : Bool
  allow_headers : Option (List String)
  allow_methods : Option (List String)
  allow_origin : Option String
  expose_headers : Option (List String)
  max_age : Option F64
  request_headers : Option (List String)
  request_method : Option String
deriving DecidableEq, Repr

/-- `impl TryFrom<CorsConfigFile> for CorsConfig`.  The result is wrapped in
an outer `Option` whose `none` models the panic of `Duration::from_secs_f64`;
a returned value is `Except.ok` or `Except.error` exactly as the Rust
function returns `Ok` or `Err` (the error type `anyhow::Error` is modelled as
`String`). -/
def CorsConfig.try_from (file_config : CorsConfigFile) :
    Option (Except String CorsConfig) :=
  let b := CorsConfig.builder
  let b := if file_config.allow_credentials then b.allow_credentials else b
  let b := match file_config.allow_headers with
    | some v => b.allow_headers v
    | none => b
  let b := match file_config.allow_methods with
    | some v => b.allow_methods v
    | none => b
  let b := match file_config.allow_origin with
    | some v => b.allow_origin v
    | none => b
  let b := match file_config.expose_headers with
    | some v => b.expose_headers v
    | none => b
  (match file_config.max_age with
    | some x => (durationFromSecsF64 x).map (fun d => b.max_age d)
    | none => some b).map (fun (b : CorsConfigBuilder) =>
      let b := match file_config.request_headers with
        | some v => b.request_headers v
        | none => b
      let b := match file_config.request_method with
        | some v => b.request_method v
        | none => b
      Except.ok b.build)

/-- Whether a conversion outcome is a returned `Ok` value (as opposed to a
returned `Err` or a panic). -/
def resultIsOk : Option (Except String CorsConfig) → Bool
  | some (Except.ok _) => true
  | _ => false

/-- The eight distinct builder setters of `CorsConfigBuilder`. -/
inductive SetterKind where
  | allowOrigin
  | allowMethods
  | allowHeaders
  | allowCredentials
  | maxAge
  | exposeHeaders
  | requestHeaders
  | requestMethod
deriving DecidableEq, Repr

/-- One builder setter call together with its argument, mirroring the eight
setter methods of `CorsConfigBuilder`. -/
inductive SetterCall where
  | allow_origin (origin : String)
  | allow_methods (methods : List String)
  | allow_headers (headers : List String)
  | allow_credentials
  | max_age (duration : Duration)
  | expose_headers (headers : List String)
  | request_headers (headers : List String)
  | request_method (method : String)
deriving DecidableEq, Repr

/-- The setter a call invokes. -/
def SetterCall.kind : SetterCall → SetterKind
  | SetterCall.allow_origin _ => SetterKind.allowOrigin
  | SetterCall.allow_methods _ => SetterKind.allowMethods
  | SetterCall.allow_headers _ => SetterKind.allowHeaders
  | SetterCall.allow_credentials => SetterKind.allowCredentials
  | SetterCall.max_age _ => SetterKind.maxAge
  | SetterCall.expose_headers _ => SetterKind.exposeHeaders
  | SetterCall.request_headers _ => SetterKind.requestHeaders
  | SetterCall.request_method _ => SetterKind.requestMethod

/-- Apply one setter call to a builder. -/
def applyCall (b : CorsConfigBuilder) : SetterCall → CorsConfigBuilder
  | SetterCall.allow_origin o => b.allow_origin o
  | SetterCall.allow_methods m => b.allow_methods m
  | SetterCall.allow_headers hs => b.allow_headers hs
  | SetterCall.allow_credentials => b.allow_credentials
  | SetterCall.max_age d => b.max_age d
  | SetterCall.expose_headers hs => b.expose_headers hs
  | SetterCall.request_headers hs => b.request_headers hs
  | SetterCall.request_method m => b.request_method m

/-- Apply a finite sequence of setter calls to a builder, left to right. -/
def applyCalls (b : CorsConfigBuilder) : List SetterCall → CorsConfigBuilder
  | [] => b
  | c :: cs => applyCalls (applyCall b c) cs

/-- Auxiliary fold computing the last call of a given kind, with an
accumulator holding the last matching call seen so far. -/
def lastCallAux (k : SetterKind) (acc : Option SetterCall) :
    List SetterCall → Option SetterCall
  | [] => acc
  | c :: cs => lastCallAux k (if c.kind = k then some c else acc) cs

/-- The last call made to a given distinct setter in a sequence of calls,
if that setter was called at all. -/
def lastCallOfKind (calls : List SetterCall) (k : SetterKind) :
    Option SetterCall :=
  lastCallAux k none calls

/-- The precondition under which `Duration::from_secs_f64` does not panic:
the float is finite, non-negative, and its whole-second part fits in a
`u64`. -/
def maxAgeOk : F64 → Bool
  | F64.finite q =>
      decide (0 ≤ q) &&
        decide (roundHalfEven (q * 1000000000) <
          18446744073709551616 * 1000000000)
  | F64.nan => false
  | F64.inf _ => false

/-- The configuration the conversion builds from a file configuration: every
field copied over, with `max_age` replaced by the already-converted duration
(used to state the characterization of `CorsConfig.try_from`). -/
def convertedConfig (fc : CorsConfigFile) (d : Option Duration) : CorsConfig :=
  { allow_credentials := fc.allow_credentials
    allow_headers := fc.allow_headers
    allow_methods := fc.allow_methods
    allow_origin := fc.allow_origin
    expose_headers := fc.expose_headers
    max_age := d
    request_headers := fc.request_headers
    request_method := fc.request_method }

/-- Follows the spec's words for the comparison in C9: the conversion as it
would run had the credentials flag been absent upstream and defaulted, i.e.
with the `allow_credentials` setter never applied.  Identical to
`CorsConfig.try_from` except that the credentials step is skipped. -/
def tryFromCredAbsent (file_config : CorsConfigFile) :
    Option (Except String CorsConfig) :=
  let b := CorsConfig.builder
  let b := match file_config.allow_headers with
    | some v => b.allow_headers v
    | none => b
  let b := match file_config.allow_methods with
    | some v => b.allow_methods v
    | none => b
  let b := match file_config.allow_origin with
    | some v => b.allow_origin v
    | none => b
  let b := match file_config.expose_headers with
    | some v => b.expose_headers v
    | none => b
  (match file_config.max_age with
    | some x => (durationFromSecsF64 x).map (fun d => b.max_age d)
    | none => some b).map (fun (b : CorsConfigBuilder) =>
      let b := match file_config.request_headers with
        | some v => b.request_headers v
        | none => b
      let b := match file_config.request_method with
        | some v => b.request_method v
        | none => b
      Except.ok b.build)

/-- A value of a parsed TOML document: string, integer, boolean, or nested
table.  This is the structured document the external TOML text parser hands
to deserialization. -/
inductive TomlValue where
  | str (s : String)
  | int (n : Int)
  | boolean (b : Bool)
  | table (entries : List (String × TomlValue))

/-- A parsed top-level TOML document: key/value entries. -/
abbrev TomlDoc := List (String × TomlValue)

/-- The `ConfigFile` struct of `src/config/file.rs`.  The `host` field is an
IP address in the source (`std::net::IpAddr`); its textual syntax validation
is external library behaviour, so the address is kept abstract here as the
string denoting it.  `root_dir` is an optional filesystem path, kept as a
string.  The optional `[tls]` table is deserialized into an external
structure and passed through opaquely (spec, component 4.2), so it is kept
here as the raw table value. -/
structure ConfigFile where
  host : String
  port : Nat
  verbose : Bool
  root_dir : Option String
  tls : Option TomlValue

/-- Model of `anyhow::Error` as the loader produces it: either an I/O error
propagated with its underlying cause (the `?` on `fs::read_to_string`), or a
message error built with `Error::msg`. -/
inductive AnyhowError where
  | ioError (cause : String)
  | msg (s : String)

/-- The missing-required-field message of the underlying TOML deserializer
(as exercised by the repository's own test `checks_invalid_config_from_file`:
a missing top-level field is reported at line 1 column 1). -/
def missingFieldMsg (k : String) : String :=
  "missing field `" ++ k ++ "` at line 1 column 1"

/-- The type-mismatch message of the underlying deserializer, naming the
offending field. -/
def invalidTypeMsg (k : String) : String :=
  "invalid type for key `" ++ k ++ "` at line 1 column 1"

/-- The out-of-range-value message of the underlying deserializer, naming
the offending field. -/
def invalidValueMsg (k : String) : String :=
  "invalid value for key `" ++ k ++ "` at line 1 column 1"

/-- Look up a required top-level field, failing with the missing-field
message. -/
def requireField (doc : TomlDoc) (k : String) : Except String TomlValue :=
  match List.lookup k doc with
  | some v => Except.ok v
  | none => Except.error (missingFieldMsg k)

/-- Expect a string value for field `k`. -/
def asStr (k : String) : TomlValue → Except String String
  | TomlValue.str s => Except.ok s
  | _ => Except.error (invalidTypeMsg k)

/-- Expect an integer fitting in a `u16` for field `k`. -/
def asU16 (k : String) : TomlValue → Except String Nat
  | TomlValue.int n =>
      if 0 ≤ n ∧ n < 65536 then Except.ok n.toNat
      else Except.error (invalidValueMsg k)
  | _ => Except.error (invalidTypeMsg k)

/-- Expect a boolean value for field `k`. -/
def asBool (k : String) : TomlValue → Except String Bool
  | TomlValue.boolean b => Except.ok b
  | _ => Except.error (invalidTypeMsg k)

/-- Modelled from the spec: the serde-derived TOML deserialization of
`ConfigFile` (the `Deserialize` derive is declared in `src/config/file.rs`,
but the generated deserializer and the `toml` crate are external library
code).  Required fields `host`, `port`, `verbose` are checked in struct
declaration order; absence of one fails with an error naming the missing
field and its location; a value of mismatched type fails with an error
naming the field; `root_dir` and `tls` are optional and their absence is not
an error; the `[tls]` table is passed through opaquely. -/
def deserializeConfigFile (doc : TomlDoc) : Except String ConfigFile :=
  match requireField doc "host" with
  | Except.error e => Except.error e
  | Except.ok hostVal =>
    match asStr "host" hostVal with
    | Except.error e => Except.error e
    | Except.ok host =>
      match requireField doc "port" with
      | Except.error e => Except.error e
      | Except.ok portVal =>
        match asU16 "port" portVal with
        | Except.error e => Except.error e
        | Except.ok port =>
          match requireField doc "verbose" with
          | Except.error e => Except.error e
          | Except.ok verboseVal =>
            match asBool "verbose" verboseVal with
            | Except.error e => Except.error e
            | Except.ok verbose =>
              match (match List.lookup "root_dir" doc with
                | none => Except.ok none
                | some v => (asStr "root_dir" v).map some) with
              | Except.error e => Except.error e
              | Except.ok root_dir =>
                Except.ok
                  { host := host
                    port := port
                    verbose := verbose
                    root_dir := root_dir
                    tls := List.lookup "tls" doc }

/-- `ConfigFile::parse_toml` from `src/config/file.rs`, generic over the
external TOML text parser `p` (`toml::from_str` first parses the text into a
document and then deserializes it; both failure kinds surface as one error
message `err`): any underlying error message is surfaced verbatim inside
`Error::msg("Failed to parse config from file. " ++ err)`. -/
def ConfigFile.parse_toml (p : String → Except String TomlDoc)
    (content : String) : Except AnyhowError ConfigFile :=
  match (p content).bind deserializeConfigFile with
  | Except.ok config => Except.ok config
  | Except.error err =>
      Except.error
        (AnyhowError.msg ("Failed to parse config from file. " ++ err))

/-- The path actually read by `ConfigFile::from_file`: the given path, or the
literal `server.toml` when none is given. -/
def resolvePath : Option String → String
  | some path => path
  | none => "server.toml"

/-- `ConfigFile::from_file` from `src/config/file.rs`, generic over the file
system: `read_to_string` models `fs::read_to_string` (the whole file as text,
or an I/O error with its underlying cause) and `p` models the external TOML
text parser.  A read failure is propagated as an I/O error via `?`; on a
successful read the full contents are handed to `parse_toml`. -/
def ConfigFile.from_file (read_to_string : String → Except String String)
    (p : String → Except String TomlDoc) (path : Option String) :
    Except AnyhowError ConfigFile :=
  let file_path := resolvePath path
  match read_to_string file_path with
  | Except.error cause => Except.error (AnyhowError.ioError cause)
  | Except.ok file => ConfigFile.parse_toml p file

/-- C2: `CorsConfig::allow_all()` returns exactly the permissive preset:
wildcard origin, the six methods in order, the three headers in order,
credentials `false`, max age exactly 43200 seconds with zero nanoseconds, and
`expose_headers`, `request_headers`, `request_method` all absent. -/
theorem allow_all_exact :
    CorsConfig.allow_all =
      { allow_credentials := false
        allow_headers := some ["Origin", "Content-Length", "Content-Type"]
        allow_methods := some ["GET", "POST", "PUT", "PATCH", "DELETE", "HEAD"]
        allow_origin := some "*"
        expose_headers := none
        max_age := some ⟨43200, 0⟩
        request_headers := none
        request_method := none } := by
  rfl

/-- C10: `CorsConfig::builder()` returns a builder seeded with the
all-defaults configuration (credentials `false`, every optional field
absent), and consequently `CorsConfig::builder().build()` is that
all-defaults configuration. -/
theorem builder_all_defaults :
    CorsConfig.builder =
      { config :=
          { allow_credentials := false
            allow_headers := none
            allow_methods := none
            allow_origin := none
            expose_headers := none
            max_age := none
            request_headers := none
            request_method := none } } ∧
    CorsConfig.builder.build = CorsConfig.default := by
  exact ⟨rfl, rfl⟩

/-- Unfolding of the last-call fold: running it from an arbitrary accumulator
is the run from the empty accumulator, falling back to the accumulator when
no call of the kind occurs. -/
theorem lastCallAux_eq (k : SetterKind) (calls : List SetterCall) :
    ∀ acc : Option SetterCall,
      lastCallAux k acc calls =
        (match lastCallOfKind calls k with
          | some c => some c
          | none => acc) := by
  induction calls with
  | nil => intro acc; rfl
  | cons c cs ih =>
    intro acc
    show lastCallAux k (if c.kind = k then some c else acc) cs = _
    rw [ih]
    have h2 : lastCallOfKind (c :: cs) k =
        lastCallAux k (if c.kind = k then some c else none) cs := rfl
    rw [h2, ih]
    rcases lastCallOfKind cs k with _ | d
    · by_cases hk : c.kind = k
      · simp [hk]
      · simp [hk]
    · simp

/-- Cons step for `lastCallOfKind`. -/
theorem lastCallOfKind_cons (k : SetterKind) (c : SetterCall)
    (cs : List SetterCall) :
    lastCallOfKind (c :: cs) k =
      (match lastCallOfKind cs k with
        | some d => some d
        | none => if c.kind = k then some c else none) :=
  lastCallAux_eq k cs _

/-- The accumulator-level invariant: every call the fold returns has the
requested kind, provided the accumulator does. -/
theorem kind_of_lastCallAux (k : SetterKind) (calls : List SetterCall) :
    ∀ (acc : Option SetterCall) (c : SetterCall),
      (∀ d, acc = some d → d.kind = k) →
      lastCallAux k acc calls = some c → c.kind = k := by
  induction calls with
  | nil => intro acc c hacc h; exact hacc c h
  | cons e cs ih =>
    intro acc c hacc h
    refine ih _ c ?_ h
    intro d hd
    by_cases hk : e.kind = k
    · rw [if_pos hk] at hd
      injection hd with hd
      rw [← hd]; exact hk
    · rw [if_neg hk] at hd
      exact hacc d hd

/-- The last call of a kind, when present, has that kind. -/
theorem kind_of_lastCallOfKind (calls : List SetterCall) (k : SetterKind)
    (c : SetterCall) (h : lastCallOfKind calls k = some c) : c.kind = k :=
  kind_of_lastCallAux k calls none c (fun d hd => by cases hd) h

/-- The `allow_origin` field after a sequence of setter calls is the argument
of the last `allow_origin` call, or the starting builder's value if that
setter was never called. -/
theorem applyCalls_allow_origin (calls : List SetterCall) :
    ∀ b : CorsConfigBuilder,
      (applyCalls b calls).config.allow_origin =
        (match lastCallOfKind calls SetterKind.allowOrigin with
          | some (SetterCall.allow_origin o) => some o
          | _ => b.config.allow_origin) := by
  induction calls with
  | nil => intro b; rfl
  | cons c cs ih =>
    intro b
    show (applyCalls (applyCall b c) cs).config.allow_origin = _
    rw [ih, lastCallOfKind_cons]
    rcases hlast : lastCallOfKind cs SetterKind.allowOrigin with _ | d
    · cases c <;>
        simp [applyCall, SetterCall.kind, CorsConfigBuilder.allow_origin,
          CorsConfigBuilder.allow_methods, CorsConfigBuilder.allow_headers,
          CorsConfigBuilder.allow_credentials, CorsConfigBuilder.max_age,
          CorsConfigBuilder.expose_headers, CorsConfigBuilder.request_headers,
          CorsConfigBuilder.request_method]
    · have hk := kind_of_lastCallOfKind cs SetterKind.allowOrigin d hlast
      cases d <;> simp [SetterCall.kind] at hk ⊢

/-- The `allow_methods` field after a sequence of setter calls is determined by the
last `allow_methods` call, or is the starting builder's value if that setter was
never called. -/
theorem applyCalls_allow_methods (calls : List SetterCall) :
    ∀ b : CorsConfigBuilder,
      (applyCalls b calls).config.allow_methods =
        (match lastCallOfKind calls SetterKind.allowMethods with
          | some (SetterCall.allow_methods m) => some m
          | _ => b.config.allow_methods) := by
  induction calls with
  | nil => intro b; rfl
  | cons c cs ih =>
    intro b
    show (applyCalls (applyCall b c) cs).config.allow_methods = _
    rw [ih, lastCallOfKind_cons]
    rcases hlast : lastCallOfKind cs SetterKind.allowMethods with _ | d
    · cases c <;>
        simp [applyCall, SetterCall.kind, CorsConfigBuilder.allow_origin,
          CorsConfigBuilder.allow_methods, CorsConfigBuilder.allow_headers,
          CorsConfigBuilder.allow_credentials, CorsConfigBuilder.max_age,
          CorsConfigBuilder.expose_headers, CorsConfigBuilder.request_headers,
          CorsConfigBuilder.request_method]
    · have hk := kind_of_lastCallOfKind cs SetterKind.allowMethods d hlast
      cases d <;> simp [SetterCall.kind] at hk ⊢

/-- The `allow_headers` field after a sequence of setter calls is determined by the
last `allow_headers` call, or is the starting builder's value if that setter was
never called. -/
theorem applyCalls_allow_headers (calls : List SetterCall) :
    ∀ b : CorsConfigBuilder,
      (applyCalls b calls).config.allow_headers =
        (match lastCallOfKind calls SetterKind.allowHeaders with
          | some (SetterCall.allow_headers hs) => some hs
          | _ => b.config.allow_headers) := by
  induction calls with
  | nil => intro b; rfl
  | cons c cs ih =>
    intro b
    show (applyCalls (applyCall b c) cs).config.allow_headers = _
    rw [ih, lastCallOfKind_cons]
    rcases hlast : lastCallOfKind cs SetterKind.allowHeaders with _ | d
    · cases c <;>
        simp [applyCall, SetterCall.kind, CorsConfigBuilder.allow_origin,
          CorsConfigBuilder.allow_methods, CorsConfigBuilder.allow_headers,
          CorsConfigBuilder.allow_credentials, CorsConfigBuilder.max_age,
          CorsConfigBuilder.expose_headers, CorsConfigBuilder.request_headers,
          CorsConfigBuilder.request_method]
    · have hk := kind_of_lastCallOfKind cs SetterKind.allowHeaders d hlast
      cases d <;> simp [SetterCall.kind] at hk ⊢

/-- The `allow_credentials` field after a sequence of setter calls is determined by the
last `allow_credentials` call, or is the starting builder's value if that setter was
never called. -/
theorem applyCalls_allow_credentials (calls : List SetterCall) :
    ∀ b : CorsConfigBuilder,
      (applyCalls b calls).config.allow_credentials =
        (match lastCallOfKind calls SetterKind.allowCredentials with
          | some _ => true
          | _ => b.config.allow_credentials) := by
  induction calls with
  | nil => intro b; rfl
  | cons c cs ih =>
    intro b
    show (applyCalls (applyCall b c) cs).config.allow_credentials = _
    rw [ih, lastCallOfKind_cons]
    rcases hlast : lastCallOfKind cs SetterKind.allowCredentials with _ | d
    · cases c <;>
        simp [applyCall, SetterCall.kind, CorsConfigBuilder.allow_origin,
          CorsConfigBuilder.allow_methods, CorsConfigBuilder.allow_headers,
          CorsConfigBuilder.allow_credentials, CorsConfigBuilder.max_age,
          CorsConfigBuilder.expose_headers, CorsConfigBuilder.request_headers,
          CorsConfigBuilder.request_method]
    · have hk := kind_of_lastCallOfKind cs SetterKind.allowCredentials d hlast
      cases d <;> simp [SetterCall.kind] at hk ⊢

/-- The `max_age` field after a sequence of setter calls is determined by the
last `max_age` call, or is the starting builder's value if that setter was
never called. -/
theorem applyCalls_max_age (calls : List SetterCall) :
    ∀ b : CorsConfigBuilder,
      (applyCalls b calls).config.max_age =
        (match lastCallOfKind calls SetterKind.maxAge with
          | some (SetterCall.max_age d) => some d
          | _ => b.config.max_age) := by
  induction calls with
  | nil => intro b; rfl
  | cons c cs ih =>
    intro b
    show (applyCalls (applyCall b c) cs).config.max_age = _
    rw [ih, lastCallOfKind_cons]
    rcases hlast : lastCallOfKind cs SetterKind.maxAge with _ | d
    · cases c <;>
        simp [applyCall, SetterCall.kind, CorsConfigBuilder.allow_origin,
          CorsConfigBuilder.allow_methods, CorsConfigBuilder.allow_headers,
          CorsConfigBuilder.allow_credentials, CorsConfigBuilder.max_age,
          CorsConfigBuilder.expose_headers, CorsConfigBuilder.request_headers,
          CorsConfigBuilder.request_method]
    · have hk := kind_of_lastCallOfKind cs SetterKind.maxAge d hlast
      cases d <;> simp [SetterCall.kind] at hk ⊢

/-- The `expose_headers` field after a sequence of setter calls is determined by the
last `expose_headers` call, or is the starting builder's value if that setter was
never called. -/
theorem applyCalls_expose_headers (calls : List SetterCall) :
    ∀ b : CorsConfigBuilder,
      (applyCalls b calls).config.expose_headers =
        (match lastCallOfKind calls SetterKind.exposeHeaders with
          | some (SetterCall.expose_headers hs) => some hs
          | _ => b.config.expose_headers) := by
  induction calls with
  | nil => intro b; rfl
  | cons c cs ih =>
    intro b
    show (applyCalls (applyCall b c) cs).config.expose_headers = _
    rw [ih, lastCallOfKind_cons]
    rcases hlast : lastCallOfKind cs SetterKind.exposeHeaders with _ | d
    · cases c <;>
        simp [applyCall, SetterCall.kind, CorsConfigBuilder.allow_origin,
          CorsConfigBuilder.allow_methods, CorsConfigBuilder.allow_headers,
          CorsConfigBuilder.allow_credentials, CorsConfigBuilder.max_age,
          CorsConfigBuilder.expose_headers, CorsConfigBuilder.request_headers,
          CorsConfigBuilder.request_method]
    · have hk := kind_of_lastCallOfKind cs SetterKind.exposeHeaders d hlast
      cases d <;> simp [SetterCall.kind] at hk ⊢

/-- The `request_headers` field after a sequence of setter calls is determined by the
last `request_headers` call, or is the starting builder's value if that setter was
never called. -/
theorem applyCalls_request_headers (calls : List SetterCall) :
    ∀ b : CorsConfigBuilder,
      (applyCalls b calls).config.request_headers =
        (match lastCallOfKind calls SetterKind.requestHeaders with
          | some (SetterCall.request_headers hs) => some hs
          | _ => b.config.request_headers) := by
  induction calls with
  | nil => intro b; rfl
  | cons c cs ih =>
    intro b
    show (applyCalls (applyCall b c) cs).config.request_headers = _
    rw [ih, lastCallOfKind_cons]
    rcases hlast : lastCallOfKind cs SetterKind.requestHeaders with _ | d
    · cases c <;>
        simp [applyCall, SetterCall.kind, CorsConfigBuilder.allow_origin,
          CorsConfigBuilder.allow_methods, CorsConfigBuilder.allow_headers,
          CorsConfigBuilder.allow_credentials, CorsConfigBuilder.max_age,
          CorsConfigBuilder.expose_headers, CorsConfigBuilder.request_headers,
          CorsConfigBuilder.request_method]
    · have hk := kind_of_lastCallOfKind cs SetterKind.requestHeaders d hlast
      cases d <;> simp [SetterCall.kind] at hk ⊢

/-- The `request_method` field after a sequence of setter calls is determined by the
last `request_method` call, or is the starting builder's value if that setter was
never called. -/
theorem applyCalls_request_method (calls : List SetterCall) :
    ∀ b : CorsConfigBuilder,
      (applyCalls b calls).config.request_method =
        (match lastCallOfKind calls SetterKind.requestMethod with
          | some (SetterCall.request_method m) => some m
          | _ => b.config.request_method) := by
  induction calls with
  | nil => intro b; rfl
  | cons c cs ih =>
    intro b
    show (applyCalls (applyCall b c) cs).config.request_method = _
    rw [ih, lastCallOfKind_cons]
    rcases hlast : lastCallOfKind cs SetterKind.requestMethod with _ | d
    · cases c <;>
        simp [applyCall, SetterCall.kind, CorsConfigBuilder.allow_origin,
          CorsConfigBuilder.allow_methods, CorsConfigBuilder.allow_headers,
          CorsConfigBuilder.allow_credentials, CorsConfigBuilder.max_age,
          CorsConfigBuilder.expose_headers, CorsConfigBuilder.request_headers,
          CorsConfigBuilder.request_method]
    · have hk := kind_of_lastCallOfKind cs SetterKind.requestMethod d hlast
      cases d <;> simp [SetterCall.kind] at hk ⊢

/-- C5: for every finite sequence of builder setter calls starting from
`CorsConfig::builder()`, the built `CorsConfig` is determined by the last call
made to each distinct setter: two sequences agreeing on the last call per
setter build the same configuration (so replaying, in any order, only the
last call to each distinct setter gives the same result); moreover calls to
distinct setters commute, and a repeated call to the same setter overwrites
the prior one with no error. -/
theorem builder_last_write_wins :
    (∀ calls calls' : List SetterCall,
        (∀ k, lastCallOfKind calls k = lastCallOfKind calls' k) →
        (applyCalls CorsConfig.builder calls).build =
          (applyCalls CorsConfig.builder calls').build) ∧
    (∀ (b : CorsConfigBuilder) (c c' : SetterCall), c.kind ≠ c'.kind →
        applyCall (applyCall b c) c' = applyCall (applyCall b c') c) ∧
    (∀ (b : CorsConfigBuilder) (c c' : SetterCall), c.kind = c'.kind →
        applyCall (applyCall b c) c' = applyCall b c') := by
  refine ⟨?_, ?_, ?_⟩
  · intro calls calls' h
    show (applyCalls CorsConfig.builder calls).config =
      (applyCalls CorsConfig.builder calls').config
    apply CorsConfig.ext
    · rw [applyCalls_allow_credentials, applyCalls_allow_credentials,
        h SetterKind.allowCredentials]
    · rw [applyCalls_allow_headers, applyCalls_allow_headers,
        h SetterKind.allowHeaders]
    · rw [applyCalls_allow_methods, applyCalls_allow_methods,
        h SetterKind.allowMethods]
    · rw [applyCalls_allow_origin, applyCalls_allow_origin,
        h SetterKind.allowOrigin]
    · rw [applyCalls_expose_headers, applyCalls_expose_headers,
        h SetterKind.exposeHeaders]
    · rw [applyCalls_max_age, applyCalls_max_age, h SetterKind.maxAge]
    · rw [applyCalls_request_headers, applyCalls_request_headers,
        h SetterKind.requestHeaders]
    · rw [applyCalls_request_method, applyCalls_request_method,
        h SetterKind.requestMethod]
  · intro b c c' h
    obtain ⟨⟨f1, f2, f3, f4, f5, f6, f7, f8⟩⟩ := b
    cases c <;> cases c' <;> first | rfl | exact absurd rfl h
  · intro b c c' h
    obtain ⟨⟨f1, f2, f3, f4, f5, f6, f7, f8⟩⟩ := b
    cases c <;> cases c' <;> first | rfl | simp [SetterCall.kind] at h

/-- C5 witness: a concrete sequence with a repeated `allow_origin` call
builds the same configuration as replaying, in a different order, only the
last call to each distinct setter. -/
theorem builder_last_write_wins_witness :
    (applyCalls CorsConfig.builder
        [SetterCall.allow_origin "a", SetterCall.allow_credentials,
          SetterCall.allow_methods ["GET"],
          SetterCall.allow_origin "b"]).build =
      (applyCalls CorsConfig.builder
        [SetterCall.allow_methods ["GET"], SetterCall.allow_origin "b",
          SetterCall.allow_credentials]).build :=
  builder_last_write_wins.1 _ _ (by intro k; cases k <;> rfl)

/-- C6: each builder setter sets exactly its one corresponding field of the
underlying configuration and leaves every other field unchanged;
`allow_credentials` takes no argument and unconditionally sets the flag to
`true`; and no sequence of builder calls can reset `allow_credentials` to
`false` once it is `true`. -/
theorem setter_frame_and_credentials_sticky :
    (∀ (b : CorsConfigBuilder) (origin : String),
        (b.allow_origin origin).config =
          { b.config with allow_origin := some origin }) ∧
    (∀ (b : CorsConfigBuilder) (methods : List String),
        (b.allow_methods methods).config =
          { b.config with allow_methods := some methods }) ∧
    (∀ (b : CorsConfigBuilder) (headers : List String),
        (b.allow_headers headers).config =
          { b.config with allow_headers := some headers }) ∧
    (∀ b : CorsConfigBuilder,
        b.allow_credentials.config =
          { b.config with allow_credentials := true }) ∧
    (∀ (b : CorsConfigBuilder) (duration : Duration),
        (b.max_age duration).config =
          { b.config with max_age := some duration }) ∧
    (∀ (b : CorsConfigBuilder) (headers : List String),
        (b.expose_headers headers).config =
          { b.config with expose_headers := some headers }) ∧
    (∀ (b : CorsConfigBuilder) (headers : List String),
        (b.request_headers headers).config =
          { b.config with request_headers := some headers }) ∧
    (∀ (b : CorsConfigBuilder) (method : String),
        (b.request_method method).config =
          { b.config with request_method := some method }) ∧
    (∀ (b : CorsConfigBuilder) (calls : List SetterCall),
        b.config.allow_credentials = true →
        (applyCalls b calls).config.allow_credentials = true) := by
  refine ⟨fun b o => rfl, fun b m => rfl, fun b hs => rfl, fun b => rfl,
    fun b d => rfl, fun b hs => rfl, fun b hs => rfl, fun b m => rfl, ?_⟩
  intro b calls hb
  rw [applyCalls_allow_credentials]
  rcases lastCallOfKind calls SetterKind.allowCredentials with _ | d
  · exact hb
  · rfl

/-- C6 witness: once credentials are enabled, a concrete later sequence of
other setter calls leaves the flag `true`. -/
theorem setter_frame_and_credentials_sticky_witness :
    (applyCalls CorsConfig.builder.allow_credentials
        [SetterCall.allow_origin "http://example.com",
          SetterCall.max_age ⟨5, 0⟩]).config.allow_credentials = true :=
  setter_frame_and_credentials_sticky.2.2.2.2.2.2.2.2
    CorsConfig.builder.allow_credentials
    [SetterCall.allow_origin "http://example.com", SetterCall.max_age ⟨5, 0⟩]
    rfl

/-- Rounding half-to-even of an integer is that integer. -/
theorem roundHalfEven_intCast (m : ℤ) : roundHalfEven (m : ℚ) = m := by
  unfold roundHalfEven
  rw [Int.floor_intCast]
  norm_num

/-- Unfolding of the duration conversion on a finite float value. -/
theorem durationFromSecsF64_finite (q : ℚ) :
    durationFromSecsF64 (F64.finite q) =
      if q < 0 then none
      else if roundHalfEven (q * 1000000000) <
          18446744073709551616 * 1000000000 then
        some ⟨(roundHalfEven (q * 1000000000)).toNat / 1000000000,
          (roundHalfEven (q * 1000000000)).toNat % 1000000000⟩
      else none := rfl

/-- When the no-panic precondition holds, the duration conversion returns a
value. -/
theorem durationFromSecsF64_isSome (x : F64) (h : maxAgeOk x = true) :
    ∃ d, durationFromSecsF64 x = some d := by
  cases x with
  | finite q =>
    simp only [maxAgeOk, Bool.and_eq_true, decide_eq_true_eq] at h
    rw [durationFromSecsF64_finite, if_neg (not_lt.mpr h.1), if_pos h.2]
    exact ⟨_, rfl⟩
  | nan => simp [maxAgeOk] at h
  | inf neg => simp [maxAgeOk] at h

/-- When the no-panic precondition fails, the duration conversion panics. -/
theorem durationFromSecsF64_none (x : F64) (h : maxAgeOk x = false) :
    durationFromSecsF64 x = none := by
  cases x with
  | finite q =>
    simp only [maxAgeOk, Bool.and_eq_false_iff, decide_eq_false_iff_not,
      not_le, not_lt] at h
    rw [durationFromSecsF64_finite]
    rcases h with h | h
    · rw [if_pos h]
    · by_cases hq : q < 0
      · rw [if_pos hq]
      · rw [if_neg hq, if_neg (not_lt.mpr h)]
  | nan => rfl
  | inf neg => rfl

/-- Characterization of the conversion when `max_age` is absent: it returns
`Ok` of the field-for-field copy with no duration. -/
theorem try_from_char_none (fc : CorsConfigFile) (h : fc.max_age = none) :
    CorsConfig.try_from fc = some (Except.ok (convertedConfig fc none)) := by
  obtain ⟨ac, ah, am, ao, eh, ma, rh, rm⟩ := fc
  simp only at h
  subst h
  cases ac <;> rcases ah with _ | v1 <;> rcases am with _ | v2 <;>
    rcases ao with _ | v3 <;> rcases eh with _ | v4 <;>
    rcases rh with _ | v5 <;> rcases rm with _ | v6 <;> rfl

/-- Characterization of the conversion when `max_age` is present: the
outcome is the duration conversion's outcome mapped onto `Ok` of the
field-for-field copy. -/
theorem try_from_char_some (fc : CorsConfigFile) (x : F64)
    (h : fc.max_age = some x) :
    CorsConfig.try_from fc =
      (durationFromSecsF64 x).map
        (fun d => Except.ok (convertedConfig fc (some d))) := by
  obtain ⟨ac, ah, am, ao, eh, ma, rh, rm⟩ := fc
  simp only at h
  subst h
  show CorsConfig.try_from _ = _
  simp only [CorsConfig.try_from]
  rcases hdur : durationFromSecsF64 x with _ | d <;>
    cases ac <;> rcases ah with _ | v1 <;> rcases am with _ | v2 <;>
    rcases ao with _ | v3 <;> rcases eh with _ | v4 <;>
    rcases rh with _ | v5 <;> rcases rm with _ | v6 <;> rfl

/-- The conversion never produces a returned `Err`. -/
theorem try_from_no_err (fc : CorsConfigFile) (e : String) :
    CorsConfig.try_from fc ≠ some (Except.error e) := by
  intro h
  rcases hma : fc.max_age with _ | x
  · rw [try_from_char_none fc hma] at h
    simp at h
  · rw [try_from_char_some fc x hma] at h
    rcases hdur : durationFromSecsF64 x with _ | d <;> rw [hdur] at h <;>
      simp at h

/-- When every present `max_age` satisfies the no-panic precondition, the
conversion returns `Ok`. -/
theorem try_from_ok_of_pre (fc : CorsConfigFile)
    (h : ∀ x, fc.max_age = some x → maxAgeOk x = true) :
    resultIsOk (CorsConfig.try_from fc) = true := by
  rcases hma : fc.max_age with _ | x
  · rw [try_from_char_none fc hma]; rfl
  · obtain ⟨d, hd⟩ := durationFromSecsF64_isSome x (h x hma)
    rw [try_from_char_some fc x hma, hd]; rfl

/-- When a present `max_age` violates the no-panic precondition, the
conversion panics. -/
theorem try_from_none_of_bad (fc : CorsConfigFile) (x : F64)
    (hma : fc.max_age = some x) (hbad : maxAgeOk x = false) :
    CorsConfig.try_from fc = none := by
  rw [try_from_char_some fc x hma, durationFromSecsF64_none x hbad]; rfl

/-- A returned configuration's credentials flag equals the source's flag. -/
theorem try_from_ok_credentials (fc : CorsConfigFile) (c : CorsConfig)
    (h : CorsConfig.try_from fc = some (Except.ok c)) :
    c.allow_credentials = fc.allow_credentials := by
  rcases hma : fc.max_age with _ | x
  · rw [try_from_char_none fc hma] at h
    injection h with h1
    injection h1 with h2
    rw [← h2]; rfl
  · rw [try_from_char_some fc x hma] at h
    rcases hdur : durationFromSecsF64 x with _ | d
    · rw [hdur] at h; simp at h
    · rw [hdur, Option.map_some'] at h
      injection h with h1
      injection h1 with h2
      rw [← h2]; rfl

/-- Helper: a finite non-negative value whose nanosecond total is an
in-range integer satisfies the no-panic precondition. -/
theorem maxAgeOk_intCast (q : ℚ) (m : ℤ) (hq : 0 ≤ q)
    (h : q * 1000000000 = (m : ℚ))
    (hm : m < 18446744073709551616 * 1000000000) :
    maxAgeOk (F64.finite q) = true := by
  simp only [maxAgeOk, Bool.and_eq_true, decide_eq_true_eq]
  exact ⟨hq, by rw [h, roundHalfEven_intCast]; exact hm⟩

/-- Helper: a finite negative value violates the no-panic precondition. -/
theorem maxAgeOk_neg (q : ℚ) (hq : q < 0) :
    maxAgeOk (F64.finite q) = false := by
  simp only [maxAgeOk, Bool.and_eq_false_iff, decide_eq_false_iff_not]
  exact Or.inl (not_le.mpr hq)

/-- Helper: a finite value whose nanosecond total is an integer at or above
`2^64` seconds violates the no-panic precondition. -/
theorem maxAgeOk_big (q : ℚ) (m : ℤ) (h : q * 1000000000 = (m : ℚ))
    (hm : 18446744073709551616 * 1000000000 ≤ m) :
    maxAgeOk (F64.finite q) = false := by
  simp only [maxAgeOk, Bool.and_eq_false_iff, decide_eq_false_iff_not]
  exact Or.inr (by rw [h, roundHalfEven_intCast]; exact not_lt.mpr hm)

/-- C3 counterexample: the conversion does not always return `Ok` — applied
to a file configuration whose `max_age` is the negative float `-5400.0`, the
`Duration::from_secs_f64` call panics, so nothing is returned at all. -/
theorem try_from_not_always_ok :
    resultIsOk (CorsConfig.try_from
      { allow_credentials := false, allow_headers := none,
        allow_methods := none, allow_origin := none, expose_headers := none,
        max_age := some (F64.finite (-5400)), request_headers := none,
        request_method := none }) = false := by
  rw [try_from_none_of_bad _ (F64.finite (-5400)) rfl
    (maxAgeOk_neg (-5400) (by norm_num))]
  rfl

/-- C3 (amended): for every `CorsConfigFile`, the conversion never returns
an `Err` (no field-level validation rejects any value); and whenever the
`max_age` value, when present, satisfies the no-panic precondition of the
duration conversion, the conversion returns `Ok`. -/
theorem try_from_never_err :
    (∀ (fc : CorsConfigFile) (e : String),
        CorsConfig.try_from fc ≠ some (Except.error e)) ∧
    (∀ fc : CorsConfigFile,
        (∀ x, fc.max_age = some x → maxAgeOk x = true) →
        resultIsOk (CorsConfig.try_from fc) = true) :=
  ⟨try_from_no_err, try_from_ok_of_pre⟩

/-- C3 witness: on a concrete file configuration with a wildcard origin,
credentials enabled and a benign `max_age` of `3600.0`, the conversion
returns `Ok`. -/
theorem try_from_never_err_witness :
    resultIsOk (CorsConfig.try_from
      { allow_credentials := true, allow_headers := some ["Origin"],
        allow_methods := none, allow_origin := some "*",
        expose_headers := none, max_age := some (F64.finite 3600),
        request_headers := none, request_method := none }) = true :=
  try_from_never_err.2 _ (by
    intro x hx
    have h2 : F64.finite 3600 = x := by injection hx
    rw [← h2]
    exact maxAgeOk_intCast 3600 3600000000000 (by norm_num) (by norm_num)
      (by norm_num))

/-- C4: the conversion is not total over floating-point `max_age` values:
whenever a present `max_age` violates the no-panic precondition (negative,
NaN, infinite, or with a whole-second part beyond `u64`), the conversion
panics instead of returning `Ok` or an error; whenever every present
`max_age` satisfies the precondition, it returns `Ok`; and concretely a NaN,
an infinite, and an out-of-range `max_age` each make it panic. -/
theorem try_from_not_total :
    (∀ (fc : CorsConfigFile) (x : F64), fc.max_age = some x →
        maxAgeOk x = false → CorsConfig.try_from fc = none) ∧
    (∀ fc : CorsConfigFile,
        (∀ x, fc.max_age = some x → maxAgeOk x = true) →
        resultIsOk (CorsConfig.try_from fc) = true) ∧
    CorsConfig.try_from
      { allow_credentials := false, allow_headers := none,
        allow_methods := none, allow_origin := none, expose_headers := none,
        max_age := some F64.nan, request_headers := none,
        request_method := none } = none ∧
    CorsConfig.try_from
      { allow_credentials := false, allow_headers := none,
        allow_methods := none, allow_origin := none, expose_headers := none,
        max_age := some (F64.inf false), request_headers := none,
        request_method := none } = none ∧
    CorsConfig.try_from
      { allow_credentials := false, allow_headers := none,
        allow_methods := none, allow_origin := none, expose_headers := none,
        max_age := some (F64.finite 18446744073709551616),
        request_headers := none, request_method := none } = none := by
  refine ⟨try_from_none_of_bad, try_from_ok_of_pre, rfl, rfl, ?_⟩
  exact try_from_none_of_bad _ (F64.finite 18446744073709551616) rfl
    (maxAgeOk_big 18446744073709551616 18446744073709551616000000000
      (by norm_num) (by norm_num))

/-- C4 witness: a negative `max_age` of `-1.0` concretely makes the
conversion panic. -/
theorem try_from_not_total_witness :
    CorsConfig.try_from
      { allow_credentials := true, allow_headers := none,
        allow_methods := none, allow_origin := none, expose_headers := none,
        max_age := some (F64.finite (-1)), request_headers := none,
        request_method := none } = none :=
  try_from_not_total.1 _ (F64.finite (-1)) rfl
    (maxAgeOk_neg (-1) (by norm_num))

/-- C1 counterexample: a fully-populated `CorsConfigFile` (every optional
field `Some`, credentials `true`) whose `max_age` is NaN makes the
conversion panic instead of returning `Ok`, so the conversion does not
return `Ok` for every fully-populated file. -/
theorem try_from_round_trip_counterexample :
    CorsConfig.try_from
      { allow_credentials := true, allow_headers := some ["content-type"],
        allow_methods := some ["GET"], allow_origin := some "github.com",
        expose_headers := some ["request-id"], max_age := some F64.nan,
        request_headers := some ["authorization"],
        request_method := some "GET" } = none := rfl

/-- C1 (amended): for every fully-populated `CorsConfigFile` with
`allow_credentials = true` whose `max_age` float converts to a duration
without panic, the conversion returns `Ok` of a configuration equal to the
source field-for-field with `max_age` that exact duration; and whenever the
seconds value is exactly representable at nanosecond granularity (its
nanosecond total is an integer `m`), the duration preserves the exact
fractional-second value with no rounding to whole seconds. -/
theorem try_from_round_trip (ah am eh rh : List String) (ao rm : String)
    (x : F64) (d : Duration) (hd : durationFromSecsF64 x = some d) :
    CorsConfig.try_from
      { allow_credentials := true, allow_headers := some ah,
        allow_methods := some am, allow_origin := some ao,
        expose_headers := some eh, max_age := some x,
        request_headers := some rh, request_method := some rm } =
      some (Except.ok
        { allow_credentials := true, allow_headers := some ah,
          allow_methods := some am, allow_origin := some ao,
          expose_headers := some eh, max_age := some d,
          request_headers := some rh, request_method := some rm }) ∧
    (∀ (q : ℚ) (m : ℤ), x = F64.finite q → q * 1000000000 = (m : ℚ) →
        (d.secs : ℚ) * 1000000000 + (d.nanos : ℚ) = q * 1000000000) := by
  constructor
  · rw [try_from_char_some _ x rfl, hd, Option.map_some']
    rfl
  · intro q m hq hm
    subst hq
    rw [durationFromSecsF64_finite] at hd
    by_cases hq0 : q < 0
    · rw [if_pos hq0] at hd; exact absurd hd (by simp)
    · rw [if_neg hq0] at hd
      rw [hm, roundHalfEven_intCast] at hd
      by_cases hlt : m < 18446744073709551616 * 1000000000
      · rw [if_pos hlt] at hd
        injection hd with hd
        have h0 : (0 : ℚ) ≤ (m : ℚ) := by
          rw [← hm]
          exact mul_nonneg (not_lt.mp hq0) (by norm_num)
        have hnn : (0 : ℤ) ≤ m := by exact_mod_cast h0
        rw [← hd]
        dsimp only
        rw [hm]
        have hcast : ((m.toNat : ℕ) : ℚ) = ((m : ℤ) : ℚ) := by
          exact_mod_cast congrArg (fun z : ℤ => (z : ℚ))
            (Int.toNat_of_nonneg hnn)
        rw [← hcast]
        calc (((m.toNat / 1000000000 : ℕ) : ℚ)) * 1000000000 +
            ((m.toNat % 1000000000 : ℕ) : ℚ)
            = ((1000000000 * (m.toNat / 1000000000) +
                m.toNat % 1000000000 : ℕ) : ℚ) := by push_cast; ring
          _ = ((m.toNat : ℕ) : ℚ) := by rw [Nat.div_add_mod]
      · rw [if_neg hlt] at hd; exact absurd hd (by simp)

/-- C1 witness: converting the fully-populated file with `max_age = 5400.5`
returns `Ok` with every field copied and a duration of exactly 5400 seconds
and 500000000 nanoseconds — sub-second precision preserved, no rounding to
whole seconds. -/
theorem try_from_round_trip_witness :
    durationFromSecsF64 (F64.finite (10801 / 2)) =
      some ⟨5400, 500000000⟩ ∧
    CorsConfig.try_from
      { allow_credentials := true, allow_headers := some ["content-type"],
        allow_methods := some ["GET", "POST"],
        allow_origin := some "github.com",
        expose_headers := some ["request-id"],
        max_age := some (F64.finite (10801 / 2)),
        request_headers := some ["authorization"],
        request_method := some "GET" } =
      some (Except.ok
        { allow_credentials := true, allow_headers := some ["content-type"],
          allow_methods := some ["GET", "POST"],
          allow_origin := some "github.com",
          expose_headers := some ["request-id"],
          max_age := some ⟨5400, 500000000⟩,
          request_headers := some ["authorization"],
          request_method := some "GET" }) ∧
    ((5400 : ℕ) : ℚ) * 1000000000 + ((500000000 : ℕ) : ℚ) =
      (10801 / 2 : ℚ) * 1000000000 := by
  have hd : durationFromSecsF64 (F64.finite (10801 / 2)) =
      some ⟨5400, 500000000⟩ := by
    rw [durationFromSecsF64_finite, if_neg (by norm_num : ¬((10801 / 2 : ℚ) < 0))]
    have h2 : ((10801 / 2 : ℚ) * 1000000000) = ((5400500000000 : ℤ) : ℚ) := by
      norm_num
    rw [h2, roundHalfEven_intCast, if_pos (by norm_num)]
    decide
  refine ⟨hd, ?_, ?_⟩
  · exact (try_from_round_trip ["content-type"] ["GET", "POST"]
      ["request-id"] ["authorization"] "github.com" "GET"
      (F64.finite (10801 / 2)) ⟨5400, 500000000⟩ hd).1
  · exact (try_from_round_trip ["content-type"] ["GET", "POST"]
      ["request-id"] ["authorization"] "github.com" "GET"
      (F64.finite (10801 / 2)) ⟨5400, 500000000⟩ hd).2 (10801 / 2)
      5400500000000 rfl (by norm_num)

/-- C9: when the source's `allow_credentials` flag is `false`, the
conversion's outcome is identical to that of the conversion that skips the
credentials step entirely (the flag absent or defaulted upstream), and any
returned configuration has `allow_credentials = false`. -/
theorem try_from_credentials_false :
    ∀ fc : CorsConfigFile, fc.allow_credentials = false →
      CorsConfig.try_from fc = tryFromCredAbsent fc ∧
      (∀ c, CorsConfig.try_from fc = some (Except.ok c) →
          c.allow_credentials = false) := by
  intro fc hcred
  constructor
  · unfold CorsConfig.try_from tryFromCredAbsent
    rw [hcred]
    rfl
  · intro c h
    rw [try_from_ok_credentials fc c h]
    exact hcred

/-- C9 witness: a concrete file configuration with the flag `false` converts
identically to the credentials-step-free conversion. -/
theorem try_from_credentials_false_witness :
    CorsConfig.try_from
      { allow_credentials := false, allow_headers := none,
        allow_methods := some ["GET"], allow_origin := some "*",
        expose_headers := none, max_age := none, request_headers := none,
        request_method := none } =
      tryFromCredAbsent
        { allow_credentials := false, allow_headers := none,
          allow_methods := some ["GET"], allow_origin := some "*",
          expose_headers := none, max_age := none, request_headers := none,
          request_method := none } :=
  (try_from_credentials_false _ rfl).1

/-- A document without a `host` entry deserializes to the missing-`host`
error. -/
theorem deserialize_missing_host (doc : TomlDoc)
    (h : List.lookup "host" doc = none) :
    deserializeConfigFile doc = Except.error (missingFieldMsg "host") := by
  unfold deserializeConfigFile requireField
  rw [h]

/-- A document whose `host` is a string but without a `port` entry
deserializes to the missing-`port` error. -/
theorem deserialize_missing_port (doc : TomlDoc) (s : String)
    (hhost : List.lookup "host" doc = some (TomlValue.str s))
    (h : List.lookup "port" doc = none) :
    deserializeConfigFile doc = Except.error (missingFieldMsg "port") := by
  unfold deserializeConfigFile requireField
  rw [hhost, h]
  rfl

/-- A document whose `host` is a string and `port` an in-range integer but
without a `verbose` entry deserializes to the missing-`verbose` error. -/
theorem deserialize_missing_verbose (doc : TomlDoc) (s : String) (n : ℤ)
    (hhost : List.lookup "host" doc = some (TomlValue.str s))
    (hport : List.lookup "port" doc = some (TomlValue.int n))
    (hn : 0 ≤ n ∧ n < 65536)
    (h : List.lookup "verbose" doc = none) :
    deserializeConfigFile doc = Except.error (missingFieldMsg "verbose") := by
  simp only [deserializeConfigFile, requireField, asStr, asU16, hhost, hport,
    h]
  rw [if_pos hn]

/-- A document whose `host` entry is present but not a string deserializes
to a type error naming `host`. -/
theorem deserialize_host_mismatch (doc : TomlDoc) (v : TomlValue)
    (hhost : List.lookup "host" doc = some v)
    (hv : ∀ s, v ≠ TomlValue.str s) :
    deserializeConfigFile doc = Except.error (invalidTypeMsg "host") := by
  unfold deserializeConfigFile requireField
  rw [hhost]
  cases v with
  | str s => exact absurd rfl (hv s)
  | int n => rfl
  | boolean b => rfl
  | table entries => rfl

/-- Any deserialization error message `e` is surfaced by `parse_toml`
verbatim inside the wrapper message. -/
theorem parse_toml_deser_error (p : String → Except String TomlDoc)
    (content : String) (doc : TomlDoc) (e : String)
    (hp : p content = Except.ok doc)
    (hd : deserializeConfigFile doc = Except.error e) :
    ConfigFile.parse_toml p content =
      Except.error
        (AnyhowError.msg ("Failed to parse config from file. " ++ e)) := by
  unfold ConfigFile.parse_toml
  rw [hp,
    show (Except.ok doc).bind deserializeConfigFile =
      deserializeConfigFile doc from rfl,
    hd]

/-- A successful parse and deserialization is returned unchanged by
`parse_toml`. -/
theorem parse_toml_deser_ok (p : String → Except String TomlDoc)
    (content : String) (doc : TomlDoc) (c : ConfigFile)
    (hp : p content = Except.ok doc)
    (hd : deserializeConfigFile doc = Except.ok c) :
    ConfigFile.parse_toml p content = Except.ok c := by
  unfold ConfigFile.parse_toml
  rw [hp,
    show (Except.ok doc).bind deserializeConfigFile =
      deserializeConfigFile doc from rfl,
    hd]

/-- C7: for every parsed document missing a required field, `parse_toml`
fails with an error naming the missing field and its location (checked in
declaration order `host`, `port`, `verbose`), the underlying deserializer's
message being surfaced verbatim inside the wrapper
`Failed to parse config from file.`; a mismatched type for `host` fails the
same way, naming the field; and every underlying error message is surfaced
verbatim. -/
theorem parse_toml_missing_required :
    (∀ (p : String → Except String TomlDoc) (content : String)
        (doc : TomlDoc), p content = Except.ok doc →
        List.lookup "host" doc = none →
        ConfigFile.parse_toml p content =
          Except.error (AnyhowError.msg
            ("Failed to parse config from file. " ++
              missingFieldMsg "host"))) ∧
    (∀ (p : String → Except String TomlDoc) (content : String)
        (doc : TomlDoc) (s : String), p content = Except.ok doc →
        List.lookup "host" doc = some (TomlValue.str s) →
        List.lookup "port" doc = none →
        ConfigFile.parse_toml p content =
          Except.error (AnyhowError.msg
            ("Failed to parse config from file. " ++
              missingFieldMsg "port"))) ∧
    (∀ (p : String → Except String TomlDoc) (content : String)
        (doc : TomlDoc) (s : String) (n : ℤ), p content = Except.ok doc →
        List.lookup "host" doc = some (TomlValue.str s) →
        List.lookup "port" doc = some (TomlValue.int n) →
        0 ≤ n ∧ n < 65536 →
        List.lookup "verbose" doc = none →
        ConfigFile.parse_toml p content =
          Except.error (AnyhowError.msg
            ("Failed to parse config from file. " ++
              missingFieldMsg "verbose"))) ∧
    (∀ (p : String → Except String TomlDoc) (content : String)
        (doc : TomlDoc) (v : TomlValue), p content = Except.ok doc →
        List.lookup "host" doc = some v → (∀ s, v ≠ TomlValue.str s) →
        ConfigFile.parse_toml p content =
          Except.error (AnyhowError.msg
            ("Failed to parse config from file. " ++
              invalidTypeMsg "host"))) ∧
    (∀ (p : String → Except String TomlDoc) (content : String)
        (doc : TomlDoc) (e : String), p content = Except.ok doc →
        deserializeConfigFile doc = Except.error e →
        ConfigFile.parse_toml p content =
          Except.error (AnyhowError.msg
            ("Failed to parse config from file. " ++ e))) := by
  refine ⟨?_, ?_, ?_, ?_, ?_⟩
  · intro p content doc hp h
    exact parse_toml_deser_error p content doc _ hp
      (deserialize_missing_host doc h)
  · intro p content doc s hp hhost h
    exact parse_toml_deser_error p content doc _ hp
      (deserialize_missing_port doc s hhost h)
  · intro p content doc s n hp hhost hport hn h
    exact parse_toml_deser_error p content doc _ hp
      (deserialize_missing_verbose doc s n hhost hport hn h)
  · intro p content doc v hp hhost hv
    exact parse_toml_deser_error p content doc _ hp
      (deserialize_host_mismatch doc v hhost hv)
  · intro p content doc e hp hd
    exact parse_toml_deser_error p content doc e hp hd

/-- C7 witness: the repository's own invalid-config test case — a document
holding only `port = 7878` — fails with exactly the message
`Failed to parse config from file. missing field h-o-s-t at line 1 column 1`
(backquoted field name). -/
theorem parse_toml_missing_required_witness :
    ConfigFile.parse_toml
      (fun _ => Except.ok [("port", TomlValue.int 7878)]) "port = 7878" =
      Except.error (AnyhowError.msg
        ("Failed to parse config from file. " ++ missingFieldMsg "host")) :=
  parse_toml_missing_required.1
    (fun _ => Except.ok [("port", TomlValue.int 7878)]) "port = 7878"
    [("port", TomlValue.int 7878)] rfl rfl

/-- C8: `from_file` with an absent path behaves exactly as with the literal
path `server.toml` (which is what an absent path resolves to); any read
failure is propagated as an I/O error carrying the underlying cause with no
fallback to defaults; and a successful read hands the file's full contents
to `parse_toml`, whose result is returned unchanged. -/
theorem from_file_behaviour :
    (∀ (read_to_string : String → Except String String)
        (p : String → Except String TomlDoc),
        ConfigFile.from_file read_to_string p none =
          ConfigFile.from_file read_to_string p (some "server.toml")) ∧
    resolvePath none = "server.toml" ∧
    (∀ (read_to_string : String → Except String String)
        (p : String → Except String TomlDoc) (path : Option String)
        (cause : String),
        read_to_string (resolvePath path) = Except.error cause →
        ConfigFile.from_file read_to_string p path =
          Except.error (AnyhowError.ioError cause)) ∧
    (∀ (read_to_string : String → Except String String)
        (p : String → Except String TomlDoc) (path : Option String)
        (file : String),
        read_to_string (resolvePath path) = Except.ok file →
        ConfigFile.from_file read_to_string p path =
          ConfigFile.parse_toml p file) := by
  refine ⟨fun r p => rfl, rfl, ?_, ?_⟩
  · intro r p path cause h
    simp only [ConfigFile.from_file]
    rw [h]
  · intro r p path file h
    simp only [ConfigFile.from_file]
    rw [h]

/-- C8 witness: with a file system in which every read fails with a
missing-file cause, loading with an absent path yields exactly that I/O
error; with a file system returning a fixed text, loading returns exactly
the parse of that text. -/
theorem from_file_behaviour_witness :
    ConfigFile.from_file
      (fun _ => Except.error "No such file or directory (os error 2)")
      (fun _ => Except.ok []) none =
      Except.error
        (AnyhowError.ioError "No such file or directory (os error 2)") ∧
    ConfigFile.from_file (fun _ => Except.ok "host = \"h\"")
      (fun _ => Except.ok [("host", TomlValue.str "h")]) none =
      ConfigFile.parse_toml
        (fun _ => Except.ok [("host", TomlValue.str "h")]) "host = \"h\"" :=
  ⟨from_file_behaviour.2.2.1
      (fun _ => Except.error "No such file or directory (os error 2)")
      (fun _ => Except.ok []) none "No such file or directory (os error 2)"
      rfl,
    from_file_behaviour.2.2.2 (fun _ => Except.ok "host = \"h\"")
      (fun _ => Except.ok [("host", TomlValue.str "h")]) none "host = \"h\""
      rfl⟩
